import Mathlib

/-!
Shallow embedding of the RingLink identity crate (src/lib.rs, src/ser.rs,
src/utils.rs, src/error.rs): fixed-length device identifiers, the iterated
BLAKE2b-512 address derivation, Ed25519 sign/verify delegation, and the
canonical textual serialization.

Byte sequences are modelled as `List Nat` (each element intended `< 256`; the
`u8` bound appears as an explicit hypothesis where a theorem needs it).  The
OpenSSL cryptography provider is an external collaborator and is modelled as a
record of abstract operations (`CryptoProvider`); its per-call failures are an
opaque error code (`Nat`, standing for an `ErrorStack`).  A Rust `PKey` handle
for Ed25519 is modelled by the raw key bytes it wraps, since raw import/export
is the identity on those bytes.

The `declare_id!` macro (src/utils.rs) is generic over the byte length; the
crate's instantiation (`mod id`) fixes a constant `DeviceID::LENGTH` that is
not part of the sources here, so every operation takes the length `L`
explicitly and theorems quantify over it.
-/

/-- Byte sequences, as in Rust `&[u8]` / `Vec<u8>`. -/
abbrev Bytes := List Nat

/-- Error type of src/error.rs: `InvalidLength` or a wrapped OpenSSL error
stack (the stack itself is opaque, modelled by a numeric code). -/
inductive Error where
  | InvalidLength : Error
  | Openssl : Nat → Error
deriving DecidableEq

/-- Result of running a Rust function that may return `Ok`, return `Err`, or
abort the process (`panic!` / `.expect(..)` / out-of-bounds slice). -/
inductive CResult (α : Type) where
  | ok : α → CResult α
  | err : Error → CResult α
  | panicked : CResult α
deriving DecidableEq

/-- True exactly when the run aborted the process. -/
def CResult.isPanic {α : Type} : CResult α → Bool
  | .panicked => true
  | _ => false

/-- True exactly when the run returned `Ok`. -/
def CResult.isOkR {α : Type} : CResult α → Bool
  | .ok _ => true
  | _ => false

/-- Lift the `?` operator on a provider result: an `ErrorStack` is converted
into `Error::Openssl` via the `#[from]` conversion of src/error.rs. -/
def ossl {α : Type} : Except Nat α → Except Error α
  | .ok a => .ok a
  | .error e => .error (.Openssl e)

/-- The external cryptography provider (OpenSSL), modelled abstractly.
`blake2bAvailable` is whether `MessageDigest::from_nid(NID_BLAKE2B512)`
returns `Some`; `hash` is `openssl::hash::hash(md, ·)` for that digest;
`publicOfPrivate` is `PKey::<Private>::raw_public_key`; `importPublic` /
`importPrivate` are the validity checks of `PKey::public_key_from_raw_bytes` /
`PKey::private_key_from_raw_bytes`; `signPk` is
`Signer::new_without_digest + sign_oneshot_to_vec` on the raw private key;
`verifyPk` is `Verifier::new_without_digest + verify_oneshot` on the raw
public key (an OpenSSL `Verifier` uses only the public component of the key it
is given). -/
structure CryptoProvider where
  blake2bAvailable : Bool
  hash : Bytes → Except Nat Bytes
  publicOfPrivate : Bytes → Except Nat Bytes
  importPublic : Bytes → Except Nat Unit
  importPrivate : Bytes → Except Nat Unit
  signPk : Bytes → Bytes → Except Nat Bytes
  verifyPk : Bytes → Bytes → Bytes → Except Nat Bool

/-- Fixed-length device identifier (`declare_id!` instance): a wrapper around
its raw bytes.  In Rust the length is enforced by the array type `[u8; L]`;
here it is a property that the operations establish. -/
structure DeviceID where
  bytes : Bytes
deriving DecidableEq

/-- The `for _ in 0..k { first = hash(md, &first)?; }` loop of
`compute_address`, propagating per-call hash failures. -/
def hashLoop (P : CryptoProvider) : Nat → Bytes → Except Nat Bytes
  | 0, d => .ok d
  | k + 1, d =>
    match P.hash d with
    | .ok d2 => hashLoop P k d2
    | .error e => .error e

/-- `compute_address` of src/lib.rs: look up the BLAKE2b-512 digest by NID
(`.expect("no message digest")` aborts if it is unavailable), hash the public
key once, re-hash the digest 31 further times, then take the first `L` bytes
of the final digest (the slice `first[0..LENGTH]` aborts if the digest is
shorter than `L`). -/
def compute_address (P : CryptoProvider) (L : Nat) (public_key : Bytes) :
    CResult DeviceID :=
  if P.blake2bAvailable then
    match P.hash public_key with
    | .error e => .err (.Openssl e)
    | .ok first0 =>
      match hashLoop P 31 first0 with
      | .error e => .err (.Openssl e)
      | .ok first =>
        if L ≤ first.length then .ok ⟨first.take L⟩ else .panicked
  else .panicked

/-- RingLink identity of src/lib.rs: the derived id, the cached raw private
key bytes (`raw_sign`), and the signing key handle (`pkey : PKey<Private>`,
modelled by the raw private key bytes it wraps). -/
structure Identity where
  id : DeviceID
  raw_sign : Bytes
  pkey : Bytes
deriving DecidableEq

/-- Public part of a RingLink identity: the id, the cached raw public key
bytes, and the verification key handle (`pkey : PKey<Public>`, modelled by the
raw public key bytes it wraps). -/
structure PublicIdentity where
  id : DeviceID
  raw_sign : Bytes
  pkey : Bytes
deriving DecidableEq

/-- A `PKey` handle as passed to the free `verify` function, which is generic
over `T: HasPublic` (either a private or a public key). -/
inductive KeyHandle where
  | privKey : Bytes → KeyHandle
  | pubKey : Bytes → KeyHandle

/-- The public component used by an OpenSSL `Verifier` built over a handle:
a public handle is its own public component; a private Ed25519 handle yields
its public half via `raw_public_key`. -/
def CryptoProvider.rawPublicKey (P : CryptoProvider) : KeyHandle → Except Nat Bytes
  | .privKey sk => P.publicOfPrivate sk
  | .pubKey pk => .ok pk

/-- The free `verify` function of src/lib.rs (named `verifyKey` here to avoid
clashing with the methods that delegate to it), shared by `Identity::verify`
and `PublicIdentity::verify`: build `Verifier::new_without_digest(key)` (which
fails if the handle cannot supply a public component) and run
`verify_oneshot(signature, data)`. -/
def verifyKey (P : CryptoProvider) (key : KeyHandle) (data signature : Bytes) :
    Except Error Bool :=
  match P.rawPublicKey key with
  | .error e => .error (.Openssl e)
  | .ok pk => ossl (P.verifyPk pk data signature)

/-- `Identity::generate`: sample a fresh Ed25519 keypair (the sampled raw
private key `sk` is an explicit argument, externalizing the randomness of
`PKey::generate_ed25519`), export its raw public key, derive the id with
`compute_address`, and cache the raw private key. -/
def Identity.generate (P : CryptoProvider) (L : Nat) (sk : Bytes) :
    CResult Identity :=
  match P.publicOfPrivate sk with
  | .error e => .err (.Openssl e)
  | .ok pk =>
    match compute_address P L pk with
    | .ok id => .ok ⟨id, sk, sk⟩
    | .err e => .err e
    | .panicked => .panicked

/-- `Identity::sign`: `Signer::new_without_digest(&self.pkey)` followed by
`sign_oneshot_to_vec(data)`. -/
def Identity.sign (P : CryptoProvider) (I : Identity) (data : Bytes) :
    Except Error Bytes :=
  ossl (P.signPk I.pkey data)

/-- `Identity::verify`: delegate to the free `verify` over the identity's own
(private) key handle. -/
def Identity.verify (P : CryptoProvider) (I : Identity) (data signature : Bytes) :
    Except Error Bool :=
  verifyKey P (.privKey I.pkey) data signature

/-- `PublicIdentity::new_with_id`: import the raw public key bytes as a
verification handle (the only fallible step) and take the supplied id as
given, without re-deriving it. -/
def PublicIdentity.new_with_id (P : CryptoProvider) (id : DeviceID)
    (sign : Bytes) : Except Error PublicIdentity :=
  match P.importPublic sign with
  | .error e => .error (.Openssl e)
  | .ok _ => .ok ⟨id, sign, sign⟩

/-- `PublicIdentity::new`: derive the id from the key bytes with
`compute_address`, then defer to `new_with_id`. -/
def PublicIdentity.new (P : CryptoProvider) (L : Nat) (sign : Bytes) :
    CResult PublicIdentity :=
  match compute_address P L sign with
  | .err e => .err e
  | .panicked => .panicked
  | .ok id =>
    match PublicIdentity.new_with_id P id sign with
    | .ok u => .ok u
    | .error e => .err e

/-- `PublicIdentity::verify`: delegate to the free `verify` over the public
key handle. -/
def PublicIdentity.verify (P : CryptoProvider) (U : PublicIdentity)
    (data signature : Bytes) : Except Error Bool :=
  verifyKey P (.pubKey U.pkey) data signature

/-- `Identity::public_identity`: re-export the public key from the handle and
wrap it, together with the already-known id, via `new_with_id`. -/
def Identity.public_identity (P : CryptoProvider) (I : Identity) :
    Except Error PublicIdentity :=
  match P.publicOfPrivate I.pkey with
  | .error e => .error (.Openssl e)
  | .ok pk => PublicIdentity.new_with_id P I.id pk

/-- `PartialEq for Identity`: equality over `(id, raw_sign)`, ignoring the key
handle. -/
def Identity.eqv (a b : Identity) : Prop :=
  a.id = b.id ∧ a.raw_sign = b.raw_sign

/-- `PartialEq for PublicIdentity`: equality over `(id, raw_sign)`, ignoring
the key handle. -/
def PublicIdentity.eqv (a b : PublicIdentity) : Prop :=
  a.id = b.id ∧ a.raw_sign = b.raw_sign

/-- Error type of the `hex` crate (`hex::FromHexError`). -/
inductive FromHexError where
  | InvalidHexCharacter : Char → Nat → FromHexError
  | OddLength : FromHexError
  | InvalidStringLength : FromHexError
deriving DecidableEq

/-- Lowercase hex digit for a value `< 16`, as produced by `hex::encode`. -/
def hexDigitChar (n : Nat) : Char :=
  if n < 10 then Char.ofNat (48 + n) else Char.ofNat (87 + n)

/-- `hex::encode`: each byte becomes its high then low nibble, lowercase. -/
def hexEncode : Bytes → List Char
  | [] => []
  | b :: rest => hexDigitChar (b / 16) :: hexDigitChar (b % 16) :: hexEncode rest

/-- The `hex` crate's `val` helper: value of one hex character (A-F, a-f,
0-9), or `InvalidHexCharacter` carrying the character and its index. -/
def hexVal (c : Char) (idx : Nat) : Except FromHexError Nat :=
  if 65 ≤ c.toNat ∧ c.toNat ≤ 70 then .ok (c.toNat - 55)
  else if 97 ≤ c.toNat ∧ c.toNat ≤ 102 then .ok (c.toNat - 87)
  else if 48 ≤ c.toNat ∧ c.toNat ≤ 57 then .ok (c.toNat - 48)
  else .error (.InvalidHexCharacter c idx)

/-- The per-byte loop of `hex::decode_to_slice`: consume two characters at a
time, tracking the character index for error reporting. -/
def decodePairs : List Char → Nat → Except FromHexError Bytes
  | [], _ => .ok []
  | [_], _ => .error .OddLength
  | c1 :: c2 :: rest, i =>
    match hexVal c1 i with
    | .error e => .error e
    | .ok hi =>
      match hexVal c2 (i + 1) with
      | .error e => .error e
      | .ok lo =>
        match decodePairs rest (i + 2) with
        | .error e => .error e
        | .ok tail => .ok ((hi * 16 + lo) :: tail)

/-- `FromStr` of `declare_id!` (src/utils.rs): `hex::decode_to_slice` into a
default (all-zero) id of length `L` — odd-length text is `OddLength`, text
whose half-length differs from `L` is `InvalidStringLength`, otherwise the
characters are decoded pairwise. -/
def DeviceID.from_str (L : Nat) (s : List Char) : Except FromHexError DeviceID :=
  if s.length % 2 ≠ 0 then .error .OddLength
  else if s.length / 2 ≠ L then .error .InvalidStringLength
  else
    match decodePairs s 0 with
    | .error e => .error e
    | .ok bs => .ok ⟨bs⟩

/-- `TryFrom<&[u8]>` of `declare_id!`: `value.try_into()` to `[u8; L]` fails
with `Error::InvalidLength` exactly on a length mismatch. -/
def DeviceID.tryFromBytes (L : Nat) (value : Bytes) : Except Error DeviceID :=
  if value.length = L then .ok ⟨value⟩ else .error .InvalidLength

/-- Classification of a valid hex character as accepted by the `hex` crate
(uppercase A-F, lowercase a-f, digits). -/
def isHexDigit (c : Char) : Bool :=
  (65 ≤ c.toNat && c.toNat ≤ 70) || (97 ≤ c.toNat && c.toNat ≤ 102) ||
    (48 ≤ c.toNat && c.toNat ≤ 57)

/-- Standard base64 alphabet character for a sextet `< 64`. -/
def b64char (n : Nat) : Char :=
  if n < 26 then Char.ofNat (65 + n)
  else if n < 52 then Char.ofNat (97 + (n - 26))
  else if n < 62 then Char.ofNat (48 + (n - 52))
  else if n = 62 then Char.ofNat 43
  else Char.ofNat 47

/-- Sextet value of a standard-alphabet base64 character, `none` outside the
alphabet (padding `=` included). -/
def b64val (c : Char) : Option Nat :=
  if 65 ≤ c.toNat ∧ c.toNat ≤ 90 then some (c.toNat - 65)
  else if 97 ≤ c.toNat ∧ c.toNat ≤ 122 then some (c.toNat - 97 + 26)
  else if 48 ≤ c.toNat ∧ c.toNat ≤ 57 then some (c.toNat - 48 + 52)
  else if c.toNat = 43 then some 62
  else if c.toNat = 47 then some 63
  else none

/-- Model of the external base64 codec capability
(`base64::engine::general_purpose::STANDARD.encode`): standard alphabet with
`=` padding, three bytes per four characters. -/
def b64encode : Bytes → List Char
  | a :: b :: c :: rest =>
    b64char (a / 4) :: b64char (a % 4 * 16 + b / 16) ::
      b64char (b % 16 * 4 + c / 64) :: b64char (c % 64) :: b64encode rest
  | [a, b] =>
    [b64char (a / 4), b64char (a % 4 * 16 + b / 16), b64char (b % 16 * 4),
      Char.ofNat 61]
  | [a] => [b64char (a / 4), b64char (a % 4 * 16), Char.ofNat 61, Char.ofNat 61]
  | [] => []

/-- Model of the external base64 codec capability (`STANDARD.decode`): four
characters per three bytes, `=` padding allowed only at the end, `none` on any
malformed input. -/
def b64decode : List Char → Option Bytes
  | [] => some []
  | c1 :: c2 :: c3 :: c4 :: rest =>
    match b64val c1, b64val c2 with
    | some v1, some v2 =>
      if c3 = Char.ofNat 61 then
        if c4 = Char.ofNat 61 ∧ rest = [] then some [v1 * 4 + v2 / 16] else none
      else
        match b64val c3 with
        | none => none
        | some v3 =>
          if c4 = Char.ofNat 61 then
            if rest = [] then some [v1 * 4 + v2 / 16, v2 % 16 * 16 + v3 / 4]
            else none
          else
            match b64val c4 with
            | none => none
            | some v4 =>
              match b64decode rest with
              | none => none
              | some tail =>
                some ((v1 * 4 + v2 / 16) :: (v2 % 16 * 16 + v3 / 4) ::
                  (v3 % 4 * 64 + v4) :: tail)
    | _, _ => none
  | _ => none

/-- Name of the first serialized field, `"id"`. -/
def idFieldName : List Char := [Char.ofNat 105, Char.ofNat 100]

/-- Name of the second serialized field, `"sign"`. -/
def signFieldName : List Char :=
  [Char.ofNat 115, Char.ofNat 105, Char.ofNat 103, Char.ofNat 110]

/-- The flat two-string-field record both serializers emit and both derived
`IdentityPlain` deserializer helpers consume (field values as character
lists). -/
structure PlainRecord where
  id : List Char
  sign : List Char
deriving DecidableEq

/-- `Serialize for Identity` (src/ser.rs): field `id` is `hex::encode` of the
id bytes, field `sign` is the standard base64 of the cached raw private
key. -/
def Identity.serializeRecord (I : Identity) : PlainRecord :=
  ⟨hexEncode I.id.bytes, b64encode I.raw_sign⟩

/-- The ordered `(field name, value)` sequence `Serialize for Identity` emits
via `serialize_field`, capturing field names and their order. -/
def Identity.serializeFields (I : Identity) : List (List Char × List Char) :=
  [(idFieldName, (Identity.serializeRecord I).id),
   (signFieldName, (Identity.serializeRecord I).sign)]

/-- `Serialize for PublicIdentity` (src/ser.rs): field `id` uses `DeviceID`'s
own `Serialize` (the hex string), field `sign` is the standard base64 of the
cached raw public key. -/
def PublicIdentity.serializeRecord (U : PublicIdentity) : PlainRecord :=
  ⟨hexEncode U.id.bytes, b64encode U.raw_sign⟩

/-- The ordered `(field name, value)` sequence `Serialize for PublicIdentity`
emits via `serialize_field`. -/
def PublicIdentity.serializeFields (U : PublicIdentity) :
    List (List Char × List Char) :=
  [(idFieldName, (PublicIdentity.serializeRecord U).id),
   (signFieldName, (PublicIdentity.serializeRecord U).sign)]

/-- Deserialization failures of src/ser.rs, by the error message they raise:
an id that is not a device id, a `sign` field that is not base64, or a
key import rejected by the provider (`Error::custom` of the OpenSSL
error). -/
inductive DeError where
  | invalidId : DeError
  | invalidBase64 : DeError
  | keyImport : Nat → DeError
deriving DecidableEq

/-- `Deserialize for Identity` (src/ser.rs): parse the `id` field with
`DeviceID::from_str`, base64-decode the `sign` field, then import the decoded
bytes with `PKey::private_key_from_raw_bytes`; the decoded id is taken as
given, never re-derived from the key. -/
def Identity.deserializeRecord (P : CryptoProvider) (L : Nat)
    (r : PlainRecord) : Except DeError Identity :=
  match DeviceID.from_str L r.id with
  | .error _ => .error .invalidId
  | .ok id =>
    match b64decode r.sign with
    | none => .error .invalidBase64
    | some raw_sign =>
      match P.importPrivate raw_sign with
      | .error e => .error (.keyImport e)
      | .ok _ => .ok ⟨id, raw_sign, raw_sign⟩

/-- `Deserialize for PublicIdentity` (src/ser.rs): the `id` field is decoded
by `DeviceID`'s own `Deserialize` (hex), the `sign` field base64-decoded and
imported with `PKey::public_key_from_raw_bytes`; the id is taken as given,
never re-derived from the key. -/
def PublicIdentity.deserializeRecord (P : CryptoProvider) (L : Nat)
    (r : PlainRecord) : Except DeError PublicIdentity :=
  match DeviceID.from_str L r.id with
  | .error _ => .error .invalidId
  | .ok id =>
    match b64decode r.sign with
    | none => .error .invalidBase64
    | some raw_sign =>
      match P.importPublic raw_sign with
      | .error e => .error (.keyImport e)
      | .ok _ => .ok ⟨id, raw_sign, raw_sign⟩

/-- What a `debug_struct` field of the `Debug` impls can show: the bytes of a
successfully re-exported public key, or the literal `"not available"`. -/
inductive DebugField where
  | bytesField : Bytes → DebugField
  | notAvailable : DebugField
deriving DecidableEq

/-- `Debug for Identity` (src/lib.rs): renders the id (as `DeviceID`'s hex
text) and the public key re-exported from the handle — never the cached raw
private key. -/
def Identity.debugFmt (P : CryptoProvider) (I : Identity) :
    List Char × DebugField :=
  (hexEncode I.id.bytes,
   match P.publicOfPrivate I.pkey with
   | .ok pk => .bytesField pk
   | .error _ => .notAvailable)

/-- Lowercase hex character class: what `hex::encode` may emit. -/
def isLowerHexChar (c : Char) : Bool :=
  (97 ≤ c.toNat && c.toNat ≤ 102) || (48 ≤ c.toNat && c.toNat ≤ 57)

/-- Standard base64 alphabet membership, padding excluded. -/
def isB64Char (c : Char) : Bool :=
  (b64val c).isSome

/-- Concrete provider instance for exercising the embedding on closed inputs:
the hash of a byte sequence is 64 copies of its length (a fixed-width
64-byte digest), a keypair's public half equals its private bytes, a
signature is the key followed by the message, and verification recomputes
it. -/
def toyProvider : CryptoProvider where
  blake2bAvailable := true
  hash := fun b => .ok (List.replicate 64 (b.length % 256))
  publicOfPrivate := fun sk => .ok sk
  importPublic := fun _ => .ok ()
  importPrivate := fun _ => .ok ()
  signPk := fun sk m => .ok (sk ++ m)
  verifyPk := fun pk m s => .ok (decide (s = pk ++ m))

/-- The concrete provider with the BLAKE2b-512 digest made unavailable
(`MessageDigest::from_nid` returning `None`). -/
def toyProviderNoDigest : CryptoProvider :=
  { toyProvider with blake2bAvailable := false }

theorem hexVal_hexDigitChar (n : Nat) (hn : n < 16) (i : Nat) :
    hexVal (hexDigitChar n) i = .ok n := by
  interval_cases n <;> simp [hexVal, hexDigitChar]

theorem hexEncode_length (bs : Bytes) : (hexEncode bs).length = 2 * bs.length := by
  induction bs with
  | nil => rfl
  | cons b rest ih => simp [hexEncode, ih]; omega

theorem decodePairs_hexEncode (bs : Bytes) (h : ∀ b ∈ bs, b < 256) :
    ∀ i, decodePairs (hexEncode bs) i = .ok bs := by
  induction bs with
  | nil => intro i; rfl
  | cons b rest ih =>
    intro i
    have hb : b < 256 := h b (by simp)
    have h1 : b / 16 < 16 := by omega
    have h2 : b % 16 < 16 := by omega
    have ih2 := ih (fun x hx => h x (by simp [hx])) (i + 2)
    simp [hexEncode, decodePairs, hexVal_hexDigitChar _ h1, hexVal_hexDigitChar _ h2, ih2]
    omega

theorem from_str_hexEncode (L : Nat) (bs : Bytes) (hlen : bs.length = L)
    (h : ∀ b ∈ bs, b < 256) :
    DeviceID.from_str L (hexEncode bs) = .ok ⟨bs⟩ := by
  have h2 : (2 * bs.length) % 2 = 0 := by omega
  have h3 : (2 * bs.length) / 2 = bs.length := by omega
  simp [DeviceID.from_str, hexEncode_length, h2, h3, hlen, decodePairs_hexEncode bs h 0]

theorem hexVal_isOk_iff (c : Char) (i : Nat) :
    (∃ v, hexVal c i = .ok v) ↔ isHexDigit c = true := by
  simp only [hexVal, isHexDigit, Bool.or_eq_true, Bool.and_eq_true, decide_eq_true_eq]
  split
  · simp; omega
  · split
    · simp; omega
    · split
      · simp; omega
      · simp; omega

theorem hexVal_error_false (c : Char) (i : Nat) (e : FromHexError)
    (he : hexVal c i = .error e) : isHexDigit c = false := by
  cases hb : isHexDigit c
  · rfl
  · obtain ⟨v, hv⟩ := (hexVal_isOk_iff c i).mpr hb
    rw [hv] at he
    cases he

theorem decodePairs_isOk_iff (s : List Char) (i : Nat) :
    (∃ bs, decodePairs s i = .ok bs) ↔
      (s.length % 2 = 0 ∧ ∀ c ∈ s, isHexDigit c = true) := by
  induction s, i using decodePairs.induct with
  | case1 i => simp [decodePairs]
  | case2 c i => simp [decodePairs]
  | case3 c1 c2 rest i e he =>
    have hc1 := hexVal_error_false c1 i e he
    constructor
    · rintro ⟨bs, hbs⟩
      simp [decodePairs, he] at hbs
    · rintro ⟨-, hall⟩
      have h2 := hall c1 (by simp)
      rw [h2] at hc1
      cases hc1
  | case4 c1 c2 rest i v1 h1 e he =>
    have hc2 := hexVal_error_false c2 (i + 1) e he
    constructor
    · rintro ⟨bs, hbs⟩
      simp [decodePairs, h1, he] at hbs
    · rintro ⟨-, hall⟩
      have h2 := hall c2 (by simp)
      rw [h2] at hc2
      cases hc2
  | case5 c1 c2 rest i v1 h1 v2 h2 e he ih =>
    have hrest : ¬(rest.length % 2 = 0 ∧ ∀ c ∈ rest, isHexDigit c = true) := by
      rw [← ih]
      rintro ⟨bs, hbs⟩
      rw [he] at hbs
      cases hbs
    constructor
    · rintro ⟨bs, hbs⟩
      simp [decodePairs, h1, h2, he] at hbs
    · rintro ⟨heven, hall⟩
      have heven2 : rest.length % 2 = 0 := by
        simp only [List.length_cons] at heven
        omega
      exact absurd ⟨heven2, fun c hc => hall c (by simp [hc])⟩ hrest
  | case6 c1 c2 rest i v1 h1 v2 h2 tail ht ih =>
    have hc1 : isHexDigit c1 = true := (hexVal_isOk_iff c1 i).mp ⟨v1, h1⟩
    have hc2 : isHexDigit c2 = true := (hexVal_isOk_iff c2 (i + 1)).mp ⟨v2, h2⟩
    have hrest := ih.mp ⟨tail, ht⟩
    constructor
    · intro _
      refine ⟨by simp only [List.length_cons]; omega, ?_⟩
      intro c hc
      simp only [List.mem_cons] at hc
      rcases hc with rfl | rfl | hc
      · exact hc1
      · exact hc2
      · exact hrest.2 c hc
    · intro _
      exact ⟨(v1 * 16 + v2) :: tail, by simp [decodePairs, h1, h2, ht]⟩

theorem from_str_isOk_iff (L : Nat) (s : List Char) :
    (∃ d, DeviceID.from_str L s = .ok d) ↔
      (s.length = 2 * L ∧ ∀ c ∈ s, isHexDigit c = true) := by
  unfold DeviceID.from_str
  split
  · rename_i hodd
    constructor
    · rintro ⟨d, hd⟩
      cases hd
    · rintro ⟨hlen, -⟩
      exact absurd (by omega) hodd
  · rename_i hodd
    split
    · rename_i hhalf
      constructor
      · rintro ⟨d, hd⟩
        cases hd
      · rintro ⟨hlen, -⟩
        exact absurd (by omega) hhalf
    · rename_i hhalf
      rw [Decidable.not_not] at hodd
      rw [Decidable.not_not] at hhalf
      have hiff := decodePairs_isOk_iff s 0
      constructor
      · rintro ⟨d, hd⟩
        rcases hdp : decodePairs s 0 with e | bs
        · rw [hdp] at hd
          cases hd
        · exact ⟨by omega, (hiff.mp ⟨bs, hdp⟩).2⟩
      · rintro ⟨hlen, hall⟩
        obtain ⟨bs, hbs⟩ := hiff.mpr ⟨by omega, hall⟩
        exact ⟨⟨bs⟩, by rw [hbs]⟩

theorem b64val_b64char (v : Nat) (hv : v < 64) : b64val (b64char v) = some v := by
  revert v hv
  decide

theorem b64char_ne_pad (v : Nat) (hv : v < 64) : ¬ b64char v = Char.ofNat 61 := by
  revert v hv
  decide

theorem b64decode_b64encode (bs : Bytes) (h : ∀ x ∈ bs, x < 256) :
    b64decode (b64encode bs) = some bs := by
  induction bs using b64encode.induct with
  | case1 a b c rest ih =>
    have ha : a < 256 := h a (by simp)
    have hb : b < 256 := h b (by simp)
    have hc : c < 256 := h c (by simp)
    have ihr := ih (fun x hx => h x (by simp [hx]))
    have hne3 : ¬ (b64char (b % 16 * 4 + c / 64) = Char.ofNat 61) :=
      b64char_ne_pad _ (by omega)
    have hne4 : ¬ (b64char (c % 64) = Char.ofNat 61) :=
      b64char_ne_pad _ (by omega)
    simp only [b64encode, b64decode, b64val_b64char _ (show a / 4 < 64 by omega),
      b64val_b64char _ (show a % 4 * 16 + b / 16 < 64 by omega),
      b64val_b64char _ (show b % 16 * 4 + c / 64 < 64 by omega),
      b64val_b64char _ (show c % 64 < 64 by omega), hne3, hne4, ihr,
      if_neg, ite_false, Option.some.injEq, List.cons.injEq]
    refine ⟨by omega, by omega, by omega, trivial⟩
  | case2 a b =>
    have ha : a < 256 := h a (by simp)
    have hb : b < 256 := h b (by simp)
    have hne3 : ¬ (b64char (b % 16 * 4) = Char.ofNat 61) :=
      b64char_ne_pad _ (by omega)
    simp only [b64encode, b64decode, b64val_b64char _ (show a / 4 < 64 by omega),
      b64val_b64char _ (show a % 4 * 16 + b / 16 < 64 by omega),
      b64val_b64char _ (show b % 16 * 4 < 64 by omega), hne3,
      if_neg, ite_false, ite_true, Option.some.injEq, List.cons.injEq]
    refine ⟨by omega, by omega, trivial⟩
  | case3 a =>
    have ha : a < 256 := h a (by simp)
    simp only [b64encode, b64decode, b64val_b64char _ (show a / 4 < 64 by omega),
      b64val_b64char _ (show a % 4 * 16 < 64 by omega),
      and_self, ite_true, Option.some.injEq, List.cons.injEq, and_true]
    omega
  | case4 => rfl

theorem hexDigitChar_lower (n : Nat) (hn : n < 16) :
    isLowerHexChar (hexDigitChar n) = true := by
  revert n hn
  decide

theorem hexEncode_lower (bs : Bytes) (h : ∀ b ∈ bs, b < 256) :
    ∀ c ∈ hexEncode bs, isLowerHexChar c = true := by
  induction bs with
  | nil => simp [hexEncode]
  | cons b rest ih =>
    have hb : b < 256 := h b (by simp)
    intro c hc
    simp only [hexEncode, List.mem_cons] at hc
    rcases hc with rfl | rfl | hc
    · exact hexDigitChar_lower _ (by omega)
    · exact hexDigitChar_lower _ (by omega)
    · exact ih (fun x hx => h x (by simp [hx])) c hc

theorem b64char_isB64 (v : Nat) (hv : v < 64) : isB64Char (b64char v) = true := by
  revert v hv
  decide

theorem b64encode_chars (bs : Bytes) (h : ∀ x ∈ bs, x < 256) :
    ∀ ch ∈ b64encode bs, isB64Char ch = true ∨ ch = Char.ofNat 61 := by
  induction bs using b64encode.induct with
  | case1 a b c rest ih =>
    have ha : a < 256 := h a (by simp)
    have hb : b < 256 := h b (by simp)
    have hc : c < 256 := h c (by simp)
    intro ch hch
    simp only [b64encode, List.mem_cons] at hch
    rcases hch with rfl | rfl | rfl | rfl | hch
    · exact Or.inl (b64char_isB64 _ (by omega))
    · exact Or.inl (b64char_isB64 _ (by omega))
    · exact Or.inl (b64char_isB64 _ (by omega))
    · exact Or.inl (b64char_isB64 _ (by omega))
    · exact ih (fun x hx => h x (by simp [hx])) ch hch
  | case2 a b =>
    have ha : a < 256 := h a (by simp)
    have hb : b < 256 := h b (by simp)
    intro ch hch
    simp only [b64encode, List.mem_cons, List.not_mem_nil, or_false] at hch
    rcases hch with rfl | rfl | rfl | rfl
    · exact Or.inl (b64char_isB64 _ (by omega))
    · exact Or.inl (b64char_isB64 _ (by omega))
    · exact Or.inl (b64char_isB64 _ (by omega))
    · exact Or.inr rfl
  | case3 a =>
    have ha : a < 256 := h a (by simp)
    intro ch hch
    simp only [b64encode, List.mem_cons, List.not_mem_nil, or_false] at hch
    rcases hch with rfl | rfl | rfl | rfl
    · exact Or.inl (b64char_isB64 _ (by omega))
    · exact Or.inl (b64char_isB64 _ (by omega))
    · exact Or.inr rfl
    · exact Or.inr rfl
  | case4 => simp [b64encode]

theorem hashLoop_pure (P : CryptoProvider) (H : Bytes → Bytes)
    (hh : ∀ b, P.hash b = .ok (H b)) :
    ∀ k b, hashLoop P k b = .ok (H^[k] b) := by
  intro k
  induction k with
  | zero => intro b; rfl
  | succ k ih =>
    intro b
    simp only [hashLoop, hh, ih, Function.iterate_succ_apply]

/-- Claim C1: for every input byte sequence, `compute_address` applies the wide
64-byte hash 32 times in total (once to the input, then 31 times to the
digest) and returns the first `L` bytes of the final digest; the output
always has exactly length `L`, independent of the input length. -/
theorem c1_compute_address_correct (P : CryptoProvider) (L : Nat)
    (H : Bytes → Bytes) (input : Bytes)
    (havail : P.blake2bAvailable = true)
    (hhash : ∀ b, P.hash b = .ok (H b))
    (hwide : ∀ b, (H b).length = 64)
    (hL : L ≤ 64) :
    compute_address P L input = .ok ⟨(H^[32] input).take L⟩ ∧
      ((H^[32] input).take L).length = L := by
  have e1 : H^[31] (H input) = H^[32] input :=
    (Function.iterate_succ_apply H 31 input).symm
  have e2 : (H^[32] input).length = 64 := by
    rw [Function.iterate_succ_apply']
    exact hwide _
  constructor
  · simp only [compute_address, havail, if_true, hhash,
      hashLoop_pure P H hhash, e1, e2, hL, if_pos]
  · rw [List.length_take, e2]
    omega

theorem c1_witness :
    compute_address toyProvider 16 [1, 2, 3] =
      .ok ⟨((fun b : Bytes => List.replicate 64 (b.length % 256))^[32]
        [1, 2, 3]).take 16⟩ ∧
    (((fun b : Bytes => List.replicate 64 (b.length % 256))^[32]
        [1, 2, 3]).take 16).length = 16 :=
  c1_compute_address_correct toyProvider 16 _ [1, 2, 3] rfl (fun _ => rfl)
    (fun _ => by simp) (by omega)

/-- Claim C3 counterexample: the claim that an unavailable hash algorithm is reported as an error value is false: with the BLAKE2b-512 digest unavailable,
`compute_address` aborts (the `.expect("no message digest")` panic) instead
of returning an error value. -/
theorem c3_counterexample_panics :
    (compute_address toyProviderNoDigest 16 []).isPanic = true := rfl

/-- Claim C3 amended: when the selected hash algorithm is unavailable in the
provider, `compute_address` aborts the process via panic rather than
returning an error value, for every input and configured length. -/
theorem c3_unavailable_digest_panics (P : CryptoProvider) (L : Nat)
    (input : Bytes) (h : P.blake2bAvailable = false) :
    compute_address P L input = .panicked := by
  simp [compute_address, h]

theorem c3_unavailable_digest_panics_witness :
    compute_address toyProviderNoDigest 8 [1] = .panicked :=
  c3_unavailable_digest_panics toyProviderNoDigest 8 [1] rfl

/-- Claim C2: for every generated identity and message, signing succeeds and the
signature verifies as `Ok(true)` through the identity itself and through the
`PublicIdentity` obtained from `public_identity()`, assuming the provider's
signature scheme is correct (a signature produced with a private key verifies
under its exported public key) and exported public keys re-import. -/
theorem c2_sign_verify_roundtrip (P : CryptoProvider) (L : Nat) (sk : Bytes)
    (I : Identity) (M sig : Bytes)
    (hgen : Identity.generate P L sk = .ok I)
    (hsig : P.signPk sk M = .ok sig)
    (hcorrect : ∀ sk2 pk m s, P.publicOfPrivate sk2 = .ok pk →
      P.signPk sk2 m = .ok s → P.verifyPk pk m s = .ok true)
    (himp : ∀ sk2 pk, P.publicOfPrivate sk2 = .ok pk →
      P.importPublic pk = .ok ()) :
    Identity.sign P I M = .ok sig ∧
    Identity.verify P I M sig = .ok true ∧
    ∃ U, Identity.public_identity P I = .ok U ∧
      PublicIdentity.verify P U M sig = .ok true := by
  unfold Identity.generate at hgen
  cases hpk : P.publicOfPrivate sk with
  | error e =>
    simp only [hpk] at hgen
    cases hgen
  | ok pk =>
    simp only [hpk] at hgen
    cases hca : compute_address P L pk with
    | err e =>
      simp only [hca] at hgen
      cases hgen
    | panicked =>
      simp only [hca] at hgen
      cases hgen
    | ok id =>
      simp only [hca] at hgen
      cases hgen
      refine ⟨?_, ?_, ⟨id, pk, pk⟩, ?_, ?_⟩
      · simp [Identity.sign, hsig, ossl]
      · simp [Identity.verify, verifyKey, CryptoProvider.rawPublicKey, hpk,
          hcorrect sk pk M sig hpk hsig, ossl]
      · simp [Identity.public_identity, hpk, PublicIdentity.new_with_id,
          himp sk pk hpk]
      · simp [PublicIdentity.verify, verifyKey, CryptoProvider.rawPublicKey,
          hcorrect sk pk M sig hpk hsig, ossl]

theorem c2_witness :
    Identity.sign toyProvider ⟨⟨List.replicate 16 64⟩, [1, 2], [1, 2]⟩ [9] =
      .ok [1, 2, 9] ∧
    Identity.verify toyProvider ⟨⟨List.replicate 16 64⟩, [1, 2], [1, 2]⟩ [9]
      [1, 2, 9] = .ok true ∧
    ∃ U, Identity.public_identity toyProvider
        ⟨⟨List.replicate 16 64⟩, [1, 2], [1, 2]⟩ = .ok U ∧
      PublicIdentity.verify toyProvider U [9] [1, 2, 9] = .ok true :=
  c2_sign_verify_roundtrip toyProvider 16 [1, 2]
    ⟨⟨List.replicate 16 64⟩, [1, 2], [1, 2]⟩ [9] [1, 2, 9] (by rfl) rfl
    (fun sk2 pk m s h1 h2 => by
      simp only [toyProvider] at h1 h2 ⊢
      cases h1
      cases h2
      simp)
    (fun _ _ _ => rfl)

/-- Claim C4: serialization round-trips — deserializing a serialized `Identity` or
`PublicIdentity` succeeds (given the provider re-imports the raw key bytes)
and yields a value equal to the original under the `PartialEq` equality (id
and raw key bytes), and parsing a `DeviceID`'s hex textual form reconstructs
it exactly. -/
theorem c4_serialization_roundtrip (P : CryptoProvider) (L : Nat)
    (I : Identity) (U : PublicIdentity) (x : DeviceID)
    (hIlen : I.id.bytes.length = L) (hIid : ∀ b ∈ I.id.bytes, b < 256)
    (hIsk : ∀ b ∈ I.raw_sign, b < 256)
    (hIimp : P.importPrivate I.raw_sign = .ok ())
    (hUlen : U.id.bytes.length = L) (hUid : ∀ b ∈ U.id.bytes, b < 256)
    (hUpk : ∀ b ∈ U.raw_sign, b < 256)
    (hUimp : P.importPublic U.raw_sign = .ok ())
    (hxlen : x.bytes.length = L) (hxb : ∀ b ∈ x.bytes, b < 256) :
    (∃ I2, Identity.deserializeRecord P L (Identity.serializeRecord I) =
      .ok I2 ∧ I2.eqv I) ∧
    (∃ U2, PublicIdentity.deserializeRecord P L
      (PublicIdentity.serializeRecord U) = .ok U2 ∧ U2.eqv U) ∧
    DeviceID.from_str L (hexEncode x.bytes) = .ok x := by
  have hI := from_str_hexEncode L I.id.bytes hIlen hIid
  have hU := from_str_hexEncode L U.id.bytes hUlen hUid
  have hx := from_str_hexEncode L x.bytes hxlen hxb
  have hIb64 := b64decode_b64encode I.raw_sign hIsk
  have hUb64 := b64decode_b64encode U.raw_sign hUpk
  refine ⟨⟨⟨I.id, I.raw_sign, I.raw_sign⟩, ?_, rfl, rfl⟩,
    ⟨⟨U.id, U.raw_sign, U.raw_sign⟩, ?_, rfl, rfl⟩, ?_⟩
  · simp only [Identity.deserializeRecord, Identity.serializeRecord, hI,
      hIb64, hIimp]
  · simp only [PublicIdentity.deserializeRecord,
      PublicIdentity.serializeRecord, hU, hUb64, hUimp]
  · simpa using hx

theorem c4_witness :
    (∃ I2, Identity.deserializeRecord toyProvider 2
        (Identity.serializeRecord ⟨⟨[0, 255]⟩, [1, 2, 3], [1, 2, 3]⟩) =
      .ok I2 ∧ I2.eqv ⟨⟨[0, 255]⟩, [1, 2, 3], [1, 2, 3]⟩) ∧
    (∃ U2, PublicIdentity.deserializeRecord toyProvider 2
        (PublicIdentity.serializeRecord ⟨⟨[7, 8]⟩, [4, 5], [4, 5]⟩) =
      .ok U2 ∧ U2.eqv ⟨⟨[7, 8]⟩, [4, 5], [4, 5]⟩) ∧
    DeviceID.from_str 2 (hexEncode [171, 205]) = .ok ⟨[171, 205]⟩ :=
  c4_serialization_roundtrip toyProvider 2 ⟨⟨[0, 255]⟩, [1, 2, 3], [1, 2, 3]⟩
    ⟨⟨[7, 8]⟩, [4, 5], [4, 5]⟩ ⟨[171, 205]⟩ rfl (by decide) (by decide) rfl
    rfl (by decide) (by decide) rfl rfl (by decide)

/-- Claim C5: `new_with_id` and `PublicIdentity` deserialization keep the supplied
or decoded id unchanged — nothing relates the id to the key bytes, so this
holds even when the id differs from the derived address. -/
theorem c5_id_taken_as_given (P : CryptoProvider) (L : Nat) (id rid : DeviceID)
    (key rkey : Bytes) (r : PlainRecord)
    (himp : P.importPublic key = .ok ())
    (hrid : DeviceID.from_str L r.id = .ok rid)
    (hrkey : b64decode r.sign = some rkey)
    (hrimp : P.importPublic rkey = .ok ()) :
    (∃ u, PublicIdentity.new_with_id P id key = .ok u ∧ u.id = id) ∧
    (∃ u2, PublicIdentity.deserializeRecord P L r = .ok u2 ∧ u2.id = rid) := by
  refine ⟨⟨⟨id, key, key⟩, ?_, rfl⟩, ⟨⟨rid, rkey, rkey⟩, ?_, rfl⟩⟩
  · simp only [PublicIdentity.new_with_id, himp]
  · simp only [PublicIdentity.deserializeRecord, hrid, hrkey, hrimp]

theorem c5_witness :
    (∃ u, PublicIdentity.new_with_id toyProvider ⟨[9, 9]⟩ [1, 2] = .ok u ∧
      u.id = ⟨[9, 9]⟩) ∧
    (∃ u2, PublicIdentity.deserializeRecord toyProvider 2
        ⟨hexEncode [9, 9], b64encode [5]⟩ = .ok u2 ∧ u2.id = ⟨[9, 9]⟩) :=
  c5_id_taken_as_given toyProvider 2 ⟨[9, 9]⟩ ⟨[9, 9]⟩ [1, 2] [5]
    ⟨hexEncode [9, 9], b64encode [5]⟩ rfl rfl rfl rfl

/-- Claim C6: `Identity.verify` and `PublicIdentity.verify` delegate to the one
shared verification function, so over the same underlying public key, data
and signature they return identical results. -/
theorem c6_verify_contract_identical (P : CryptoProvider) (I : Identity)
    (U : PublicIdentity) (data sig pk : Bytes)
    (hI : P.publicOfPrivate I.pkey = .ok pk) (hU : U.pkey = pk) :
    Identity.verify P I data sig = PublicIdentity.verify P U data sig := by
  simp [Identity.verify, PublicIdentity.verify, verifyKey,
    CryptoProvider.rawPublicKey, hI, hU]

theorem c6_witness :
    Identity.verify toyProvider ⟨⟨[0]⟩, [1, 2], [1, 2]⟩ [3] [1, 2, 3] =
      PublicIdentity.verify toyProvider ⟨⟨[0]⟩, [1, 2], [1, 2]⟩ [3] [1, 2, 3] :=
  c6_verify_contract_identical toyProvider ⟨⟨[0]⟩, [1, 2], [1, 2]⟩
    ⟨⟨[0]⟩, [1, 2], [1, 2]⟩ [3] [1, 2, 3] [1, 2] rfl rfl

/-- Claim C7: the canonical serialized record is the field `id` (lowercase hex of
the identifier bytes) followed by the field `sign` (standard-alphabet base64
of the raw key export), with exactly these names in this order, for both
`Identity` (private-key export) and `PublicIdentity` (public-key export). -/
theorem c7_canonical_record (I : Identity) (U : PublicIdentity)
    (hIid : ∀ b ∈ I.id.bytes, b < 256) (hIsk : ∀ b ∈ I.raw_sign, b < 256)
    (hUid : ∀ b ∈ U.id.bytes, b < 256) (hUpk : ∀ b ∈ U.raw_sign, b < 256) :
    (Identity.serializeFields I).map Prod.fst = [idFieldName, signFieldName] ∧
    (Identity.serializeFields I).map Prod.snd =
      [hexEncode I.id.bytes, b64encode I.raw_sign] ∧
    (∀ c ∈ (Identity.serializeRecord I).id, isLowerHexChar c = true) ∧
    (∀ c ∈ (Identity.serializeRecord I).sign,
      isB64Char c = true ∨ c = Char.ofNat 61) ∧
    (PublicIdentity.serializeFields U).map Prod.fst =
      [idFieldName, signFieldName] ∧
    (PublicIdentity.serializeFields U).map Prod.snd =
      [hexEncode U.id.bytes, b64encode U.raw_sign] ∧
    (∀ c ∈ (PublicIdentity.serializeRecord U).id, isLowerHexChar c = true) ∧
    (∀ c ∈ (PublicIdentity.serializeRecord U).sign,
      isB64Char c = true ∨ c = Char.ofNat 61) :=
  ⟨rfl, rfl, hexEncode_lower _ hIid, b64encode_chars _ hIsk, rfl, rfl,
    hexEncode_lower _ hUid, b64encode_chars _ hUpk⟩

theorem c7_witness :
    (Identity.serializeFields ⟨⟨[0, 255]⟩, [1, 2, 3], [1, 2, 3]⟩).map Prod.fst =
      [idFieldName, signFieldName] ∧
    (Identity.serializeFields ⟨⟨[0, 255]⟩, [1, 2, 3], [1, 2, 3]⟩).map Prod.snd =
      [hexEncode [0, 255], b64encode [1, 2, 3]] ∧
    (∀ c ∈ (Identity.serializeRecord ⟨⟨[0, 255]⟩, [1, 2, 3], [1, 2, 3]⟩).id,
      isLowerHexChar c = true) ∧
    (∀ c ∈ (Identity.serializeRecord ⟨⟨[0, 255]⟩, [1, 2, 3], [1, 2, 3]⟩).sign,
      isB64Char c = true ∨ c = Char.ofNat 61) ∧
    (PublicIdentity.serializeFields ⟨⟨[7, 8]⟩, [4, 5], [4, 5]⟩).map Prod.fst =
      [idFieldName, signFieldName] ∧
    (PublicIdentity.serializeFields ⟨⟨[7, 8]⟩, [4, 5], [4, 5]⟩).map Prod.snd =
      [hexEncode [7, 8], b64encode [4, 5]] ∧
    (∀ c ∈ (PublicIdentity.serializeRecord ⟨⟨[7, 8]⟩, [4, 5], [4, 5]⟩).id,
      isLowerHexChar c = true) ∧
    (∀ c ∈ (PublicIdentity.serializeRecord ⟨⟨[7, 8]⟩, [4, 5], [4, 5]⟩).sign,
      isB64Char c = true ∨ c = Char.ofNat 61) :=
  c7_canonical_record ⟨⟨[0, 255]⟩, [1, 2, 3], [1, 2, 3]⟩
    ⟨⟨[7, 8]⟩, [4, 5], [4, 5]⟩ (by decide) (by decide) (by decide) (by decide)

/-- Claim C8: `DeviceID` fallible construction is total and typed — `try_from`
fails with `InvalidLength` exactly when the byte length differs from `L` and
succeeds otherwise; `from_str` succeeds exactly when the text is `2 * L`
valid hex characters (uppercase or lowercase) and fails with a
`FromHexError` otherwise.  Both embeddings are total Lean functions: no
input reaches a panic. -/
theorem c8_fixed_identifier_total (L : Nat) (v : Bytes) (s : List Char) :
    ((∃ d, DeviceID.tryFromBytes L v = .ok d) ↔ v.length = L) ∧
    (DeviceID.tryFromBytes L v = .error .InvalidLength ↔ v.length ≠ L) ∧
    ((∃ d, DeviceID.from_str L s = .ok d) ↔
      (s.length = 2 * L ∧ ∀ c ∈ s, isHexDigit c = true)) ∧
    ((∃ e, DeviceID.from_str L s = .error e) ↔
      ¬(s.length = 2 * L ∧ ∀ c ∈ s, isHexDigit c = true)) := by
  have hiff := from_str_isOk_iff L s
  refine ⟨?_, ?_, hiff, ?_⟩
  · unfold DeviceID.tryFromBytes
    split
    · rename_i hl
      simp [hl]
    · rename_i hl
      simp [hl]
  · unfold DeviceID.tryFromBytes
    split
    · rename_i hl
      simp [hl]
    · rename_i hl
      simp [hl]
  · constructor
    · rintro ⟨e, he⟩ hcond
      obtain ⟨d, hd⟩ := hiff.mpr hcond
      rw [he] at hd
      cases hd
    · intro hcond
      rcases hres : DeviceID.from_str L s with e | d
      · exact ⟨e, rfl⟩
      · exact absurd (hiff.mp ⟨d, hres⟩) hcond

/-- Claim C9: `public_identity()` wraps the re-exported public key with the
identity's already-known id — the returned id equals `I.id` and the key bytes
are exactly the re-export, with no re-derivation. -/
theorem c9_public_identity_keeps_id (P : CryptoProvider) (I : Identity)
    (pk : Bytes) (hexp : P.publicOfPrivate I.pkey = .ok pk)
    (himp : P.importPublic pk = .ok ()) :
    ∃ U, Identity.public_identity P I = .ok U ∧ U.id = I.id ∧
      U.raw_sign = pk ∧ U.pkey = pk := by
  refine ⟨⟨I.id, pk, pk⟩, ?_, rfl, rfl, rfl⟩
  simp only [Identity.public_identity, hexp, PublicIdentity.new_with_id, himp]

theorem c9_witness :
    ∃ U, Identity.public_identity toyProvider ⟨⟨[0]⟩, [1, 2], [1, 2]⟩ =
      .ok U ∧ U.id = ⟨[0]⟩ ∧ U.raw_sign = [1, 2] ∧ U.pkey = [1, 2] :=
  c9_public_identity_keeps_id toyProvider ⟨⟨[0]⟩, [1, 2], [1, 2]⟩ [1, 2]
    rfl rfl

/-- Claim C10: the `Debug` rendering of an `Identity` depends only on the id and
the key handle (whose public half it prints), never on the cached raw
private-key bytes: two identities differing only in `raw_sign` render
identically. -/
theorem c10_debug_hides_private_key (P : CryptoProvider) (I1 I2 : Identity)
    (hid : I1.id = I2.id) (hpk : I1.pkey = I2.pkey) :
    Identity.debugFmt P I1 = Identity.debugFmt P I2 := by
  simp [Identity.debugFmt, hid, hpk]

theorem c10_witness :
    Identity.debugFmt toyProvider ⟨⟨[1]⟩, [7, 7], [3]⟩ =
      Identity.debugFmt toyProvider ⟨⟨[1]⟩, [8, 9], [3]⟩ :=
  c10_debug_hides_private_key toyProvider ⟨⟨[1]⟩, [7, 7], [3]⟩
    ⟨⟨[1]⟩, [8, 9], [3]⟩ rfl rfl
